import Mathlib

/-!
Verification development for `download_from_google_Drive.py`.

The Python source is shallowly embedded: Python strings become `List Char`,
the pydrive `GoogleDriveFile` metadata becomes the `Entry` structure, the
side-effecting tree walk becomes a function producing a trace of `Event`s.
The remote store (pydrive's `drive.ListFile(...)`) is an external
collaborator; its query semantics are modelled from the specification's
contract for `list(filterExpression)`.
-/

set_option linter.unusedVariables false

namespace GDrive

/-- The character class written `\x7b` below is the opening curly brace and
`\x7d` the closing one.
The fixed set of characters the source calls illegal in Windows file and
folder names (comment above `makePcFileName` in the source):
`~ # % & * \x7b \x7d / \ : < > ? | "`. -/
def illegalChars : List Char :=
  [ '~', '#', '%', '&', '*', '\x7b', '\x7d', '/', '\\', ':', '<', '>', '?', '|', '\"' ]

/-- One Python `str.replace(old, new)` where both `old` and `new` are single
characters: every occurrence of `old` is replaced by `new`. -/
def replace1 (s : List Char) (old new : Char) : List Char :=
  s.map (fun c => if c = old then new else c)

/-- Embedding of `makePcFileName(inFilename, traceFlag)`: the chain of
fifteen single-character `str.replace` calls, each sending one illegal
character to an underscore, in source order (innermost first). -/
def makePcFileName (inFilename : List Char) (traceFlag : Bool) : List Char :=
  replace1 (replace1 (replace1 (replace1 (replace1 (replace1 (replace1 (replace1
    (replace1 (replace1 (replace1 (replace1 (replace1 (replace1 (replace1
      inFilename '~' '_') '#' '_') '%' '_') '&' '_') '*' '_') '\x7b' '_')
        '\x7d' '_') '/' '_') '\\' '_') ':' '_') '<' '_') '>' '_') '?' '_')
          '|' '_') '\"' '_'

/-- Python's `str.rfind(c)`: index of the last occurrence of `c`, or `-1`
when `c` does not occur.  (Used inside `os.path.splitext`.) -/
def rfind : List Char → Char → Int
  | [], _ => -1
  | a :: as, c =>
    let r := rfind as c
    if r ≥ 0 then r + 1 else if a = c then 0 else -1

/-- Option-valued view of `rfind`, convenient for stating properties. -/
def lastIdx : List Char → Char → Option Nat
  | [], _ => none
  | a :: as, c =>
    match lastIdx as c with
    | some k => some (k + 1)
    | none => if a = c then some 0 else none

/-- Embedding of CPython's `posixpath.splitext` (imported by the source as
`from os.path import splitext`): find the last path separator and the last
dot; a dot strictly after the separator starts the extension unless every
character of the final component before that dot is itself a dot (leading
dots of a file name never begin an extension).  The scanning `while` loop of
CPython is rendered as `List.all`. -/
def splitext (p : List Char) : List Char × List Char :=
  let sepIndex := rfind p '/'
  let dotIndex := rfind p '.'
  if dotIndex > sepIndex then
    if ((p.drop (sepIndex + 1).toNat).take (dotIndex - sepIndex - 1).toNat).all
        (fun c => c = '.') then
      (p, [])
    else
      (p.take dotIndex.toNat, p.drop dotIndex.toNat)
  else
    (p, [])

/-- Decimal digit character for a value below ten (Python's `str` of a
nonnegative integer is built from these). -/
def digitChar (m : Nat) : Char :=
  match m with
  | 0 => '0' | 1 => '1' | 2 => '2' | 3 => '3' | 4 => '4'
  | 5 => '5' | 6 => '6' | 7 => '7' | 8 => '8' | _ => '9'

/-- Fuel-driven accumulator loop producing the decimal digits of `n` in
front of `acc`.  Structural in the fuel so that the kernel can evaluate it. -/
def natStrGo : Nat → Nat → List Char → List Char
  | 0, n, acc => digitChar (n % 10) :: acc
  | fuel + 1, n, acc =>
    if n < 10 then digitChar (n % 10) :: acc
    else natStrGo fuel (n / 10) (digitChar (n % 10) :: acc)

/-- Embedding of Python's `str(i)` for the nonnegative loop counter `i`. -/
def natStr (n : Nat) : List Char :=
  natStrGo n n []

/-- Embedding of `getDownloadFileName(hostRootDir, driveName, suffix, i,
traceFlag)`: split the Drive title with `splitext`, fall back to the
passed-in suffix when the title has no extension, sanitize only the base
name, and insert `_<i>` before the extension when `i > 0`. -/
def getDownloadFileName (hostRootDir driveName suffix : List Char) (i : Nat)
    (traceFlag : Bool) : List Char :=
  let fe := splitext driveName
  let fileName := fe.1
  let extension := if fe.2 = [] then suffix else fe.2
  let retval := hostRootDir ++ [ '/' ] ++ makePcFileName fileName traceFlag
  let retval := if i > 0 then retval ++ [ '_' ] ++ natStr i else retval
  retval ++ extension

/-- A Google Drive object as the source consumes it: the pydrive metadata
fields the script reads (`title`, `id`, `mimeType`, `exportLinks`,
`parents`, `trashed`), flattened into one structure.  `exportLinks` keeps
only the mapping's key set, since the source only tests key membership.
`downloadOk` is the oracle for the external `GetContentFile` call: `false`
means that call raises (any cause). -/
structure Entry where
  id : List Char
  title : List Char
  mimeType : List Char
  parents : List (List Char)
  trashed : Bool
  exportLinks : Option (List (List Char))
  downloadOk : Bool
deriving DecidableEq, Repr

/-- The result of `getMimeTypeAndSuffix`: the dict
`\x7b 'mimeType' : ..., 'suffix' : ... \x7d` of the source. -/
structure Mtas where
  mimeType : List Char
  suffix : List Char
deriving DecidableEq, Repr

def wordKey : List Char :=
  ("application/vnd.openxmlformats-officedocument.wordprocessingml.document").data

def odtKey : List Char := ("application/vnd.oasis.opendocument.text").data

def rtfKey : List Char := ("application/rtf").data

def xlsxKey : List Char :=
  ("application/vnd.openxmlformats-officedocument.spreadsheetml.sheet").data

def odsKey : List Char := ("application/x-vnd.oasis.opendocument.spreadsheet").data

def csvKey : List Char := ("text/csv").data

def tsvKey : List Char := ("text/tsv").data

def pptxKey : List Char :=
  ("application/vnd.openxmlformats-officedocument.presentationml.presentation").data

def odpKey : List Char := ("application/vnd.oasis.opendocument.presentation").data

def jpgKey : List Char := ("image/jpeg").data

def pngKey : List Char := ("image/png").data

def svgKey : List Char := ("image/svg").data

def pdfMime : List Char := ("application/pdf").data

def folderMime : List Char := ("application/vnd.google-apps.folder").data

def formMime : List Char := ("application/vnd.google-apps.form").data

/-- Embedding of `getMimeTypeAndSuffix(driveFile, traceFlag)`: when the
metadata has no `exportLinks` key, the entry's own `mimeType` with empty
suffix; otherwise the `elif` chain over export-link keys in source order,
falling back to PDF. -/
def getMimeTypeAndSuffix (driveFile : Entry) (traceFlag : Bool) : Mtas :=
  match driveFile.exportLinks with
  | none => ⟨driveFile.mimeType, []⟩
  | some links =>
    if wordKey ∈ links then ⟨wordKey, (".docx").data⟩
    else if odtKey ∈ links then ⟨odtKey, (".odt").data⟩
    else if rtfKey ∈ links then ⟨rtfKey, (".rtf").data⟩
    else if xlsxKey ∈ links then ⟨xlsxKey, (".xlsx").data⟩
    else if odsKey ∈ links then ⟨odsKey, (".ods").data⟩
    else if csvKey ∈ links then ⟨csvKey, (".csv").data⟩
    else if tsvKey ∈ links then ⟨tsvKey, (".tsv").data⟩
    else if pptxKey ∈ links then ⟨pptxKey, (".pptx").data⟩
    else if odpKey ∈ links then ⟨odpKey, (".odp").data⟩
    else if jpgKey ∈ links then ⟨jpgKey, (".jpg").data⟩
    else if pngKey ∈ links then ⟨pngKey, (".png").data⟩
    else if svgKey ∈ links then ⟨svgKey, (".svg").data⟩
    else ⟨pdfMime, (".pdf").data⟩

/-- Python's `driveName.replace("'", "\\'")`: each apostrophe becomes a
backslash followed by an apostrophe. -/
def escapeApos : List Char → List Char
  | [] => []
  | c :: cs =>
    if c = '\'' then '\\' :: '\'' :: escapeApos cs
    else c :: escapeApos cs

/-- The walker's second query string:
`"title='" + driveNameForQuery + "'"`. -/
def queryStr2 (driveName : List Char) : List Char :=
  ("title=").data ++ [ '\'' ] ++ escapeApos driveName ++ [ '\'' ]

/-- The walker's first query string:
`"'%s' in parents and trashed=false" % driveRootDir`. -/
def parentQueryStr (driveRootDir : List Char) : List Char :=
  [ '\'' ] ++ driveRootDir ++ [ '\'' ] ++ (" in parents and trashed=false").data

/-- Modelled from the spec: the external remote-store session's
`list(filterExpression)` (pydrive's `drive.ListFile(...).GetList()`, not
code of this repository).  Per the spec it serves exactly the two query
shapes the walker builds: `'<id>' in parents and trashed=false` returns the
untrashed entries having that parent, and `title='<escaped-title>'` returns
every entry whose apostrophe-escaped title reads back from the filter, with
no parent or trashed clause.  Store order is preserved. -/
def ListFile (store : List Entry) (q : List Char) : List Entry :=
  let titleHead := ("title=").data ++ [ '\'' ]
  let parentTail := [ '\'' ] ++ (" in parents and trashed=false").data
  if q.take 7 = titleHead ∧ q.getLast? = some '\'' ∧ 8 ≤ q.length then
    let esc := (q.drop 7).dropLast
    store.filter (fun e => escapeApos e.title = esc)
  else if q.take 1 = [ '\'' ] ∧ q.drop (q.length - 30) = parentTail ∧
      31 ≤ q.length then
    let pid := (q.drop 1).take (q.length - 31)
    store.filter (fun e => pid ∈ e.parents ∧ e.trashed = false)
  else
    []

/-- One observable action of the walker. -/
inductive Event
  | madeDir (path : List Char) (id : List Char)
  | formNotice (title : List Char) (id : List Char)
  | downloaded (title : List Char) (id : List Char) (path : List Char)
      (mimeType : List Char)
  | failedNotice (title : List Char) (id : List Char) (path : List Char)
deriving DecidableEq, Repr

/-- The Drive id of the entry an event concerns. -/
def Event.entryId : Event → List Char
  | .madeDir _ i => i
  | .formNotice _ i => i
  | .downloaded _ i _ _ => i
  | .failedNotice _ i _ => i

/-- The inner `for driveFile in driveFiles:` loop of
`downloadAllFilesInFolder`, with the recursive call abstracted as
`recurse` so the recursion is structural: classify each entry of the title
group as folder / form / vanilla file, emit its events, and increment `i`
after every entry. -/
def processGroup (recurse : List Char → List Char → Bool → List Event)
    (hostRootDir driveName : List Char) :
    List Entry → Nat → Bool → List Event
  | [], _, _ => []
  | driveFile :: rest, i, traceFlag =>
    let events :=
      if driveFile.mimeType = folderMime then
        let pcFolderName := makePcFileName driveFile.title traceFlag
        let newFolderName := hostRootDir ++ [ '/' ] ++ pcFolderName
        Event.madeDir newFolderName driveFile.id ::
          recurse newFolderName driveFile.id traceFlag
      else if driveFile.mimeType = formMime then
        [ Event.formNotice driveFile.title driveFile.id ]
      else
        let mtas := getMimeTypeAndSuffix driveFile traceFlag
        let downloadFileName :=
          getDownloadFileName hostRootDir driveName mtas.suffix i traceFlag
        if driveFile.downloadOk then
          [ Event.downloaded driveFile.title driveFile.id downloadFileName
              mtas.mimeType ]
        else
          [ Event.failedNotice driveFile.title driveFile.id downloadFileName ]
    events ++ processGroup recurse hostRootDir driveName rest (i + 1) traceFlag

/-- Embedding of `downloadAllFilesInFolder(hostRootDir, driveRootDir,
drive, traceFlag)` as a trace-producing function: list the container, and
for each listed entry re-query the store by that entry's title and process
the whole group with counter starting at 0.  `fuel` bounds the folder
recursion depth (the Python call stack); fuel 0 yields no events. -/
def downloadAllFilesInFolder (store : List Entry) :
    Nat → List Char → List Char → Bool → List Event
  | 0, _, _, _ => []
  | fuel + 1, hostRootDir, driveRootDir, traceFlag =>
    let fileList := ListFile store (parentQueryStr driveRootDir)
    fileList.flatMap (fun f =>
      let driveName := f.title
      let driveFiles := ListFile store (queryStr2 driveName)
      processGroup (fun h r tf => downloadAllFilesInFolder store fuel h r tf)
        hostRootDir driveName driveFiles 0 traceFlag)

/-- Number of trace events concerning the entry with Drive id `eid`. -/
def idCount (tr : List Event) (eid : List Char) : Nat :=
  tr.countP (fun ev => ev.entryId = eid)

/-- What one `str.replace` chain application does to a single character:
illegal characters become underscores, all others are unchanged. -/
def sanitizeStep (c : Char) : Char :=
  if c ∈ illegalChars then '_' else c

/-- The ten decimal digit characters. -/
def tenDigits : List Char :=
  [ '0', '1', '2', '3', '4', '5', '6', '7', '8', '9' ]

/-- Specification-side split of a title, following the amended wording of
the path-builder claim: split at the last dot, except that a dot preceded
(within the title) only by dots does not begin an extension. -/
def splitextAmended (t : List Char) : List Char × List Char :=
  match lastIdx t '.' with
  | none => (t, [])
  | some d =>
    if (t.take d).all (fun c => c = '.') then (t, [])
    else (t.take d, t.drop d)

/-- Specification-side path builder following the original claim's words
literally: split the title at its last dot unconditionally; whenever the
title carries an extension (a last dot exists) that extension is used
verbatim, otherwise the suffix is appended; `_<i>` goes between base and
extension when `i > 0`. -/
def buildPathClaimed (r t s : List Char) (i : Nat) : List Char :=
  let base := match lastIdx t '.' with | some k => t.take k | none => t
  let ext := match lastIdx t '.' with | some k => t.drop k | none => s
  let retval := r ++ [ '/' ] ++ makePcFileName base false
  let retval := if i > 0 then retval ++ [ '_' ] ++ natStr i else retval
  retval ++ ext

/-! ## Concrete fixtures used by witnesses and counterexamples -/

def c2entry1 : Entry :=
  ⟨(("id1").data), (("T").data), (("text/plain").data), [(("root").data)],
    false, none, true⟩

def c2entry2 : Entry :=
  ⟨(("id2").data), (("T").data), (("text/plain").data), [(("root").data)],
    false, none, true⟩

def c2store : List Entry := [c2entry1, c2entry2]

def c5failEntry : Entry :=
  ⟨(("idX").data), (("F").data), (("text/plain").data), [(("root").data)],
    false, none, false⟩

def c5okEntry : Entry :=
  ⟨(("idY").data), (("F").data), (("text/plain").data), [(("root").data)],
    false, none, true⟩

def c10folder : Entry :=
  ⟨(("idF").data), (("T").data), folderMime, [(("root").data)], false, none,
    true⟩

def c10file : Entry :=
  ⟨(("idG").data), (("T").data), (("text/plain").data), [(("root").data)],
    false, none, true⟩

/-! ## Lemmas about the name sanitizer -/

theorem makePcFileName_cons (c : Char) (cs : List Char) (tf : Bool) :
    makePcFileName (c :: cs) tf = makePcFileName [c] tf ++ makePcFileName cs tf :=
  rfl

theorem makePcFileName_single (c : Char) (tf : Bool) :
    makePcFileName [c] tf = [sanitizeStep c] := by
  by_cases h1 : c = '~'
  · subst h1; rfl
  by_cases h2 : c = '#'
  · subst h2; rfl
  by_cases h3 : c = '%'
  · subst h3; rfl
  by_cases h4 : c = '&'
  · subst h4; rfl
  by_cases h5 : c = '*'
  · subst h5; rfl
  by_cases h6 : c = '\x7b'
  · subst h6; rfl
  by_cases h7 : c = '\x7d'
  · subst h7; rfl
  by_cases h8 : c = '/'
  · subst h8; rfl
  by_cases h9 : c = '\\'
  · subst h9; rfl
  by_cases h10 : c = ':'
  · subst h10; rfl
  by_cases h11 : c = '<'
  · subst h11; rfl
  by_cases h12 : c = '>'
  · subst h12; rfl
  by_cases h13 : c = '?'
  · subst h13; rfl
  by_cases h14 : c = '|'
  · subst h14; rfl
  by_cases h15 : c = '\"'
  · subst h15; rfl
  simp [makePcFileName, replace1, sanitizeStep, illegalChars,
    h1, h2, h3, h4, h5, h6, h7, h8, h9, h10, h11, h12, h13, h14, h15]

theorem makePcFileName_eq_map (s : List Char) (tf : Bool) :
    makePcFileName s tf = s.map sanitizeStep := by
  induction s with
  | nil => rfl
  | cons c cs ih =>
    rw [makePcFileName_cons, makePcFileName_single, ih]
    rfl

theorem illegal_not_mem_makePcFileName (c : Char) (hc : c ∈ illegalChars)
    (s : List Char) (tf : Bool) : c ∉ makePcFileName s tf := by
  rw [makePcFileName_eq_map]
  intro hmem
  obtain ⟨a, _, ha⟩ := List.mem_map.mp hmem
  by_cases h : a ∈ illegalChars
  · rw [sanitizeStep, if_pos h] at ha
    rw [← ha] at hc
    simp [illegalChars] at hc
  · rw [sanitizeStep, if_neg h] at ha
    exact h (ha ▸ hc)

theorem sanitizeStep_idem (a : Char) :
    sanitizeStep (sanitizeStep a) = sanitizeStep a := by
  by_cases h : a ∈ illegalChars
  · simp only [sanitizeStep, if_pos h]
    decide
  · simp only [sanitizeStep, if_neg h]

/-- C7: for every input string, `makePcFileName` replaces each occurrence of
each character of the fixed illegal set `~ # % & * \x7b \x7d / \ : < > ? | "`
with an underscore, so its output contains none of those characters. -/
theorem sanitize_replaces_illegal_with_underscore (s : List Char) (tf : Bool) :
    makePcFileName s tf =
      s.map (fun c => if c ∈ illegalChars then '_' else c) ∧
    ∀ c ∈ illegalChars, c ∉ makePcFileName s tf := by
  constructor
  · exact makePcFileName_eq_map s tf
  · intro c hc
    exact illegal_not_mem_makePcFileName c hc s tf

theorem sanitize_replaces_illegal_with_underscore_witness :
    ('~' ∈ illegalChars) ∧ '~' ∉ makePcFileName (("a~b").data) false :=
  ⟨by decide,
    (sanitize_replaces_illegal_with_underscore (("a~b").data) false).2 '~'
      (by decide)⟩

/-- C8: `makePcFileName` is idempotent: re-sanitizing a sanitized name is a
no-op, for every string and every pair of trace flags. -/
theorem sanitize_idempotent (s : List Char) (tf tf2 : Bool) :
    makePcFileName (makePcFileName s tf) tf2 = makePcFileName s tf := by
  rw [makePcFileName_eq_map, makePcFileName_eq_map, List.map_map]
  exact List.map_congr_left fun a _ => sanitizeStep_idem a

/-! ## Lemmas about the name/type resolver -/

/-- C6: for every entry whose metadata has no export-links mapping,
`getMimeTypeAndSuffix` returns the entry's own mimeType and the empty
suffix. -/
theorem resolve_no_exportLinks (e : Entry) (tf : Bool)
    (h : e.exportLinks = none) :
    getMimeTypeAndSuffix e tf = ⟨e.mimeType, []⟩ := by
  simp [getMimeTypeAndSuffix, h]

theorem resolve_no_exportLinks_witness :
    (Entry.exportLinks ⟨(("idA").data), (("A").data), (("text/plain").data),
        [(("root").data)], false, none, true⟩ = none) ∧
    getMimeTypeAndSuffix ⟨(("idA").data), (("A").data), (("text/plain").data),
        [(("root").data)], false, none, true⟩ false =
      ⟨(("text/plain").data), []⟩ :=
  ⟨rfl,
    resolve_no_exportLinks ⟨(("idA").data), (("A").data), (("text/plain").data),
      [(("root").data)], false, none, true⟩ false rfl⟩

/-- C1: for every entry with an export-links mapping, `getMimeTypeAndSuffix`
chooses mimeType and suffix by the fixed priority order docx, odt, rtf,
xlsx, ods, csv, tsv, pptx, odp, jpg, png, svg, evaluated top to bottom with
the first matching key winning — in particular whenever the word-processor
key is present the result is suffix `.docx` regardless of the other keys —
and when none of these keys is present it returns the PDF mime type with
suffix `.pdf`. -/
theorem resolve_priority_order (e : Entry) (tf : Bool)
    (links : List (List Char)) (h : e.exportLinks = some links) :
    (wordKey ∈ links →
      getMimeTypeAndSuffix e tf = ⟨wordKey, (".docx").data⟩) ∧
    (wordKey ∉ links → odtKey ∈ links →
      getMimeTypeAndSuffix e tf = ⟨odtKey, (".odt").data⟩) ∧
    (wordKey ∉ links → odtKey ∉ links → rtfKey ∈ links →
      getMimeTypeAndSuffix e tf = ⟨rtfKey, (".rtf").data⟩) ∧
    (wordKey ∉ links → odtKey ∉ links → rtfKey ∉ links → xlsxKey ∈ links →
      getMimeTypeAndSuffix e tf = ⟨xlsxKey, (".xlsx").data⟩) ∧
    (wordKey ∉ links → odtKey ∉ links → rtfKey ∉ links → xlsxKey ∉ links →
      odsKey ∈ links →
      getMimeTypeAndSuffix e tf = ⟨odsKey, (".ods").data⟩) ∧
    (wordKey ∉ links → odtKey ∉ links → rtfKey ∉ links → xlsxKey ∉ links →
      odsKey ∉ links → csvKey ∈ links →
      getMimeTypeAndSuffix e tf = ⟨csvKey, (".csv").data⟩) ∧
    (wordKey ∉ links → odtKey ∉ links → rtfKey ∉ links → xlsxKey ∉ links →
      odsKey ∉ links → csvKey ∉ links → tsvKey ∈ links →
      getMimeTypeAndSuffix e tf = ⟨tsvKey, (".tsv").data⟩) ∧
    (wordKey ∉ links → odtKey ∉ links → rtfKey ∉ links → xlsxKey ∉ links →
      odsKey ∉ links → csvKey ∉ links → tsvKey ∉ links → pptxKey ∈ links →
      getMimeTypeAndSuffix e tf = ⟨pptxKey, (".pptx").data⟩) ∧
    (wordKey ∉ links → odtKey ∉ links → rtfKey ∉ links → xlsxKey ∉ links →
      odsKey ∉ links → csvKey ∉ links → tsvKey ∉ links → pptxKey ∉ links →
      odpKey ∈ links →
      getMimeTypeAndSuffix e tf = ⟨odpKey, (".odp").data⟩) ∧
    (wordKey ∉ links → odtKey ∉ links → rtfKey ∉ links → xlsxKey ∉ links →
      odsKey ∉ links → csvKey ∉ links → tsvKey ∉ links → pptxKey ∉ links →
      odpKey ∉ links → jpgKey ∈ links →
      getMimeTypeAndSuffix e tf = ⟨jpgKey, (".jpg").data⟩) ∧
    (wordKey ∉ links → odtKey ∉ links → rtfKey ∉ links → xlsxKey ∉ links →
      odsKey ∉ links → csvKey ∉ links → tsvKey ∉ links → pptxKey ∉ links →
      odpKey ∉ links → jpgKey ∉ links → pngKey ∈ links →
      getMimeTypeAndSuffix e tf = ⟨pngKey, (".png").data⟩) ∧
    (wordKey ∉ links → odtKey ∉ links → rtfKey ∉ links → xlsxKey ∉ links →
      odsKey ∉ links → csvKey ∉ links → tsvKey ∉ links → pptxKey ∉ links →
      odpKey ∉ links → jpgKey ∉ links → pngKey ∉ links → svgKey ∈ links →
      getMimeTypeAndSuffix e tf = ⟨svgKey, (".svg").data⟩) ∧
    (wordKey ∉ links → odtKey ∉ links → rtfKey ∉ links → xlsxKey ∉ links →
      odsKey ∉ links → csvKey ∉ links → tsvKey ∉ links → pptxKey ∉ links →
      odpKey ∉ links → jpgKey ∉ links → pngKey ∉ links → svgKey ∉ links →
      getMimeTypeAndSuffix e tf = ⟨pdfMime, (".pdf").data⟩) := by
  refine ⟨?_, ?_, ?_, ?_, ?_, ?_, ?_, ?_, ?_, ?_, ?_, ?_, ?_⟩ <;>
    · intros
      simp only [getMimeTypeAndSuffix, h]
      simp [*]

theorem resolve_priority_order_witness :
    (Entry.exportLinks ⟨(("idB").data), (("B").data),
        (("application/vnd.google-apps.document").data), [(("root").data)],
        false, some [svgKey, wordKey], true⟩ = some [svgKey, wordKey]) ∧
    getMimeTypeAndSuffix ⟨(("idB").data), (("B").data),
        (("application/vnd.google-apps.document").data), [(("root").data)],
        false, some [svgKey, wordKey], true⟩ false =
      ⟨wordKey, ((".docx").data)⟩ :=
  ⟨rfl,
    (resolve_priority_order ⟨(("idB").data), (("B").data),
      (("application/vnd.google-apps.document").data), [(("root").data)],
      false, some [svgKey, wordKey], true⟩ false [svgKey, wordKey] rfl).1
      (by decide)⟩

/-! ## Lemmas about the title re-query -/

theorem escapeApos_head_ne (s : List Char) :
    (escapeApos s).head? ≠ some '\'' := by
  cases s with
  | nil => simp [escapeApos]
  | cons c cs =>
    by_cases h : c = '\''
    · simp [escapeApos, h]
    · simp [escapeApos, h]

theorem escapeApos_injective : ∀ s1 s2 : List Char,
    escapeApos s1 = escapeApos s2 → s1 = s2 := by
  intro s1
  induction s1 with
  | nil =>
    intro s2 h
    cases s2 with
    | nil => rfl
    | cons b bs =>
      exfalso
      by_cases hb : b = '\'' <;> simp [escapeApos, hb] at h
  | cons a as ih =>
    intro s2 h
    cases s2 with
    | nil =>
      exfalso
      by_cases ha : a = '\'' <;> simp [escapeApos, ha] at h
    | cons b bs =>
      by_cases ha : a = '\'' <;> by_cases hb : b = '\''
      · subst ha; subst hb
        simp only [escapeApos, if_pos] at h
        simp at h
        rw [ih bs h]
      · subst ha
        exfalso
        simp [escapeApos, hb] at h
        have hh := escapeApos_head_ne bs
        rw [← h.2] at hh
        simp at hh
      · subst hb
        exfalso
        simp [escapeApos, ha] at h
        have hh := escapeApos_head_ne as
        rw [h.2] at hh
        simp at hh
      · simp [escapeApos, ha, hb] at h
        rw [h.1, ih bs h.2]

/-- C9: the walker's per-title re-query is the string
`title='<apostrophe-escaped title>'` — only a title clause, no
parent-container (and no trashed) clause — so the entries it then
classifies into the current local directory are all entries of the whole
store bearing exactly that title, not only the children of the current
container. -/
theorem title_requery_returns_all_title_matches (store : List Entry)
    (t : List Char) :
    queryStr2 t = (("title=").data) ++ [ '\'' ] ++ escapeApos t ++ [ '\'' ] ∧
    ListFile store (queryStr2 t) = store.filter (fun e => e.title = t) := by
  refine ⟨rfl, ?_⟩
  have hlen7 : ((("title=").data) ++ [ '\'' ]).length = 7 := by decide
  have hq : queryStr2 t =
      ((("title=").data) ++ [ '\'' ]) ++ (escapeApos t ++ [ '\'' ]) := by
    simp [queryStr2]
  have h1 : (queryStr2 t).take 7 = (("title=").data) ++ [ '\'' ] := by
    rw [hq]
    exact List.take_left' hlen7
  have h2 : (queryStr2 t).getLast? = some '\'' := by
    have hq2 : queryStr2 t =
        ((("title=").data) ++ [ '\'' ] ++ escapeApos t) ++ [ '\'' ] := by
      simp [queryStr2]
    rw [hq2]
    exact List.getLast?_concat _
  have h3 : 8 ≤ (queryStr2 t).length := by
    simp [queryStr2]
  have h4 : ((queryStr2 t).drop 7).dropLast = escapeApos t := by
    rw [hq, List.drop_left' hlen7]
    simp
  simp only [ListFile]
  rw [if_pos ⟨h1, h2, h3⟩, h4]
  refine List.filter_congr ?_
  intro e _
  refine decide_eq_decide.mpr ?_
  constructor
  · intro hh
    exact escapeApos_injective _ _ hh
  · intro hh
    rw [hh]

/-! ## Lemmas about the tree walker -/

theorem processGroup_append
    (recurse : List Char → List Char → Bool → List Event)
    (host dn : List Char) (l1 l2 : List Entry) (i : Nat) (tf : Bool) :
    processGroup recurse host dn (l1 ++ l2) i tf =
      processGroup recurse host dn l1 i tf ++
        processGroup recurse host dn l2 (i + l1.length) tf := by
  induction l1 generalizing i with
  | nil => simp [processGroup]
  | cons e es ih =>
    simp only [List.cons_append, processGroup, List.length_cons,
      List.append_eq]
    rw [ih]
    have h : i + 1 + es.length = i + (es.length + 1) := by omega
    rw [h]
    simp [List.append_assoc]

theorem idCount_append (t1 t2 : List Event) (eid : List Char) :
    idCount (t1 ++ t2) eid = idCount t1 eid + idCount t2 eid := by
  simp [idCount, List.countP_append]

theorem idCount_flatMap (L : List Entry) (F : Entry → List Event)
    (eid : List Char) :
    idCount (L.flatMap F) eid = (L.map (fun f => idCount (F f) eid)).sum := by
  induction L with
  | nil => simp [idCount]
  | cons a as ih =>
    simp only [List.flatMap_cons, List.map_cons, List.sum_cons, idCount_append,
      ih]

theorem mem_of_mem_ListFile (store : List Entry) (q : List Char) (e : Entry)
    (he : e ∈ ListFile store q) : e ∈ store := by
  simp only [ListFile] at he
  split at he
  · exact List.mem_of_mem_filter he
  · split at he
    · exact List.mem_of_mem_filter he
    · simp at he

theorem processGroup_idCount_no_folder
    (recurse : List Char → List Char → Bool → List Event)
    (host dn : List Char) (l : List Entry) (i : Nat) (tf : Bool)
    (eid : List Char) :
    (∀ e ∈ l, e.mimeType ≠ folderMime) →
    idCount (processGroup recurse host dn l i tf) eid =
      l.countP (fun e => e.id = eid) := by
  induction l generalizing i with
  | nil =>
    intro _
    simp [processGroup, idCount]
  | cons e es ih =>
    intro hnf
    have he := hnf e (List.mem_cons_self e es)
    have hes : ∀ x ∈ es, x.mimeType ≠ folderMime :=
      fun x hx => hnf x (List.mem_cons_of_mem _ hx)
    have ihh := ih (i + 1) hes
    by_cases hform : e.mimeType = formMime
    · simp only [processGroup, if_neg he, if_pos hform, List.singleton_append]
      simp only [idCount, List.countP_cons, Event.entryId] at ihh ⊢
      rw [ihh]
    · cases hdl : e.downloadOk with
      | true =>
        simp only [processGroup, if_neg he, if_neg hform, hdl, if_pos,
          List.singleton_append]
        simp only [idCount, List.countP_cons, Event.entryId] at ihh ⊢
        rw [ihh]
      | false =>
        simp only [processGroup, if_neg he, if_neg hform, hdl,
          Bool.false_eq_true, if_false, List.singleton_append]
        simp only [idCount, List.countP_cons, Event.entryId] at ihh ⊢
        rw [ihh]

/-- C2 (amended): during one traversal of a folder-free container, the
number of events concerning a given Drive id equals the sum, over the
entries `f` of the initial listing, of how often that id occurs in the
title group re-queried for `f.title` — i.e. each listed entry triggers one
full processing of its title group, so an entry is visited once per
listing entry carrying its title, not exactly once. -/
theorem traversal_visits_once_per_title_carrier
    (store : List Entry) (fuel : Nat) (host root : List Char) (tf : Bool)
    (eid : List Char) (hnf : ∀ g ∈ store, g.mimeType ≠ folderMime) :
    idCount (downloadAllFilesInFolder store (fuel + 1) host root tf) eid =
      ((ListFile store (parentQueryStr root)).map
        (fun f => (ListFile store (queryStr2 f.title)).countP
          (fun g => g.id = eid))).sum := by
  simp only [downloadAllFilesInFolder]
  rw [idCount_flatMap]
  congr 1
  refine List.map_congr_left ?_
  intro f _
  exact processGroup_idCount_no_folder _ host f.title _ 0 tf eid
    (fun e he => hnf e (mem_of_mem_ListFile store _ e he))

/-- C2 counterexample: in a store whose root listing holds two regular
entries both titled "T", one traversal of the root container emits two
download events for the entry with id "id1": the group identified by the
shared title is processed once per entry carrying the title, and the entry
is visited twice, not exactly once. -/
theorem duplicate_title_group_processed_twice :
    idCount (downloadAllFilesInFolder c2store 1 (("dl").data) (("root").data)
        false) (("id1").data) = 2 ∧
    idCount (downloadAllFilesInFolder c2store 1 (("dl").data) (("root").data)
        false) (("id1").data) ≠ 1 := by
  decide

theorem traversal_visits_once_per_title_carrier_witness :
    (∀ g ∈ c2store, g.mimeType ≠ folderMime) ∧
    idCount (downloadAllFilesInFolder c2store 1 (("dl").data) (("root").data)
        false) (("id1").data) =
      ((ListFile c2store (parentQueryStr (("root").data))).map
        (fun f => (ListFile c2store (queryStr2 f.title)).countP
          (fun g => g.id = (("id1").data)))).sum :=
  ⟨by decide,
    traversal_visits_once_per_title_carrier c2store 0 (("dl").data)
      (("root").data) false (("id1").data) (by decide)⟩

/-- C5: when the content download of a regular (non-folder, non-form) entry
fails — `GetContentFile` raising for any reason is modelled by
`downloadOk = false` — the walker's loop emits exactly one `FAILED`
diagnostic carrying that entry's title and Drive id, and then processes the
remaining siblings exactly as it otherwise would: a single file's failure
never aborts the traversal. -/
theorem download_failure_logged_and_continues
    (store : List Entry) (fuel : Nat) (host dn : List Char)
    (l1 : List Entry) (e : Entry) (l2 : List Entry) (i : Nat) (tf : Bool)
    (hfo : e.mimeType ≠ folderMime) (hfm : e.mimeType ≠ formMime)
    (hfail : e.downloadOk = false) :
    processGroup (fun h r g => downloadAllFilesInFolder store fuel h r g)
        host dn (l1 ++ e :: l2) i tf =
      processGroup (fun h r g => downloadAllFilesInFolder store fuel h r g)
          host dn l1 i tf ++
        [ Event.failedNotice e.title e.id
            (getDownloadFileName host dn (getMimeTypeAndSuffix e tf).suffix
              (i + l1.length) tf) ] ++
        processGroup (fun h r g => downloadAllFilesInFolder store fuel h r g)
          host dn l2 (i + l1.length + 1) tf := by
  rw [processGroup_append]
  simp only [processGroup, if_neg hfo, if_neg hfm, hfail, Bool.false_eq_true,
    if_false, List.singleton_append]
  simp [List.append_assoc]

theorem download_failure_logged_and_continues_witness :
    (c5failEntry.mimeType ≠ folderMime) ∧ (c5failEntry.mimeType ≠ formMime) ∧
    (c5failEntry.downloadOk = false) ∧
    processGroup (fun h r g => downloadAllFilesInFolder [] 0 h r g)
        (("dl").data) (("F").data) ([] ++ c5failEntry :: [c5okEntry]) 0
        false =
      processGroup (fun h r g => downloadAllFilesInFolder [] 0 h r g)
          (("dl").data) (("F").data) [] 0 false ++
        [ Event.failedNotice c5failEntry.title c5failEntry.id
            (getDownloadFileName (("dl").data) (("F").data)
              (getMimeTypeAndSuffix c5failEntry false).suffix
              (0 + List.length ([] : List Entry)) false) ] ++
        processGroup (fun h r g => downloadAllFilesInFolder [] 0 h r g)
          (("dl").data) (("F").data) [c5okEntry]
          (0 + List.length ([] : List Entry) + 1) false :=
  ⟨by decide, by decide, rfl,
    download_failure_logged_and_continues [] 0 (("dl").data) (("F").data)
      [] c5failEntry [c5okEntry] 0 false (by decide) (by decide) rfl⟩

/-- C10: within one title group the zero-based counter is incremented after
every entry regardless of classification, so a regular entry preceded in
the group by the entries `l1` — folders and forms included — is built with
disambiguation index `i + l1.length`, its position among all same-titled
entries in enumeration order, not its position among the regular files
alone. -/
theorem disambiguation_index_counts_all_entries
    (store : List Entry) (fuel : Nat) (host dn : List Char)
    (l1 : List Entry) (e : Entry) (l2 : List Entry) (i : Nat) (tf : Bool)
    (hfo : e.mimeType ≠ folderMime) (hfm : e.mimeType ≠ formMime) :
    processGroup (fun h r g => downloadAllFilesInFolder store fuel h r g)
        host dn (l1 ++ e :: l2) i tf =
      processGroup (fun h r g => downloadAllFilesInFolder store fuel h r g)
          host dn l1 i tf ++
        (if e.downloadOk then
          [ Event.downloaded e.title e.id
              (getDownloadFileName host dn (getMimeTypeAndSuffix e tf).suffix
                (i + l1.length) tf) (getMimeTypeAndSuffix e tf).mimeType ]
        else
          [ Event.failedNotice e.title e.id
              (getDownloadFileName host dn (getMimeTypeAndSuffix e tf).suffix
                (i + l1.length) tf) ]) ++
        processGroup (fun h r g => downloadAllFilesInFolder store fuel h r g)
          host dn l2 (i + l1.length + 1) tf := by
  rw [processGroup_append]
  simp only [processGroup, if_neg hfo, if_neg hfm, List.singleton_append]
  cases hdl : e.downloadOk <;> simp [hdl, List.append_assoc]

theorem disambiguation_index_counts_all_entries_witness :
    (c10file.mimeType ≠ folderMime) ∧ (c10file.mimeType ≠ formMime) ∧
    processGroup (fun h r g => downloadAllFilesInFolder [] 0 h r g)
        (("dl").data) (("T").data) ([c10folder] ++ c10file :: []) 0 false =
      processGroup (fun h r g => downloadAllFilesInFolder [] 0 h r g)
          (("dl").data) (("T").data) [c10folder] 0 false ++
        (if c10file.downloadOk then
          [ Event.downloaded c10file.title c10file.id
              (getDownloadFileName (("dl").data) (("T").data)
                (getMimeTypeAndSuffix c10file false).suffix
                (0 + List.length [c10folder]) false)
              (getMimeTypeAndSuffix c10file false).mimeType ]
        else
          [ Event.failedNotice c10file.title c10file.id
              (getDownloadFileName (("dl").data) (("T").data)
                (getMimeTypeAndSuffix c10file false).suffix
                (0 + List.length [c10folder]) false) ]) ++
        processGroup (fun h r g => downloadAllFilesInFolder [] 0 h r g)
          (("dl").data) (("T").data) [] (0 + List.length [c10folder] + 1)
          false :=
  ⟨by decide, by decide,
    disambiguation_index_counts_all_entries [] 0 (("dl").data) (("T").data)
      [c10folder] c10file [] 0 false (by decide) (by decide)⟩

/-! ## Lemmas about the path builder -/

theorem digitChar_mem (m : Nat) : digitChar m ∈ tenDigits := by
  unfold digitChar
  split <;> decide

theorem natStrGo_mem (fuel : Nat) : ∀ (n : Nat) (acc : List Char) (c : Char),
    c ∈ natStrGo fuel n acc → c ∈ tenDigits ∨ c ∈ acc := by
  induction fuel with
  | zero =>
    intro n acc c hc
    simp only [natStrGo] at hc
    rcases List.mem_cons.mp hc with h | h
    · exact Or.inl (h ▸ digitChar_mem (n % 10))
    · exact Or.inr h
  | succ f ih =>
    intro n acc c hc
    simp only [natStrGo] at hc
    by_cases h : n < 10
    · rw [if_pos h] at hc
      rcases List.mem_cons.mp hc with h2 | h2
      · exact Or.inl (h2 ▸ digitChar_mem (n % 10))
      · exact Or.inr h2
    · rw [if_neg h] at hc
      rcases ih (n / 10) (digitChar (n % 10) :: acc) c hc with h2 | h2
      · exact Or.inl h2
      · rcases List.mem_cons.mp h2 with h3 | h3
        · exact Or.inl (h3 ▸ digitChar_mem (n % 10))
        · exact Or.inr h3

theorem natStr_mem_digits (n : Nat) (c : Char) (hc : c ∈ natStr n) :
    c ∈ tenDigits := by
  rcases natStrGo_mem n n [] c hc with h | h
  · exact h
  · simp at h

/-- C3 (amended): only the base-name segment of a built local path is
sanitized; every illegal character occurring in the output comes from the
unsanitized `rootDir`, from the path separator `/` the builder itself
inserts, or from the extension actually used (the title's own extension
kept verbatim, or else the passed-in suffix). -/
theorem built_path_illegal_only_from_root_sep_or_extension
    (r t s : List Char) (i : Nat) (tf : Bool) (c : Char)
    (hc : c ∈ illegalChars) (hmem : c ∈ getDownloadFileName r t s i tf) :
    c ∈ r ∨ c = '/' ∨
      c ∈ (if (splitext t).2 = [] then s else (splitext t).2) := by
  have hdig : ∀ d ∈ tenDigits, d ∉ illegalChars := by decide
  have hund : ('_' : Char) ∉ illegalChars := by decide
  simp only [getDownloadFileName] at hmem
  rcases List.mem_append.mp hmem with h | h
  swap
  · exact Or.inr (Or.inr h)
  by_cases hi : i > 0
  · rw [if_pos hi] at h
    rcases List.mem_append.mp h with h2 | h2
    · rcases List.mem_append.mp h2 with h3 | h3
      · rcases List.mem_append.mp h3 with h4 | h4
        · rcases List.mem_append.mp h4 with h5 | h5
          · exact Or.inl h5
          · exact Or.inr (Or.inl (List.mem_singleton.mp h5))
        · exact absurd h4 (illegal_not_mem_makePcFileName c hc _ tf)
      · rw [List.mem_singleton.mp h3] at hc
        exact absurd hc hund
    · exact absurd hc (hdig c (natStr_mem_digits i c h2))
  · rw [if_neg hi] at h
    rcases List.mem_append.mp h with h2 | h2
    · rcases List.mem_append.mp h2 with h3 | h3
      · exact Or.inl h3
      · exact Or.inr (Or.inl (List.mem_singleton.mp h3))
    · exact absurd h2 (illegal_not_mem_makePcFileName c hc _ tf)

/-- C3 counterexample: the built path always contains the reserved `/`, and
a title whose own extension holds `~` puts that `~` verbatim into the
output, so the produced LocalPath does contain reserved illegal
characters. -/
theorem built_path_contains_illegal_cex :
    '/' ∈ illegalChars ∧ '~' ∈ illegalChars ∧
    '/' ∈ getDownloadFileName (("root").data) (("a.b~c").data) ((".pdf").data)
        0 false ∧
    '~' ∈ getDownloadFileName (("root").data) (("a.b~c").data) ((".pdf").data)
        0 false := by
  decide

theorem built_path_illegal_witness :
    ('~' ∈ illegalChars) ∧
    ('~' ∈ getDownloadFileName (("root").data) (("a.b~c").data)
        ((".pdf").data) 0 false) ∧
    ('~' ∈ (("root").data) ∨ '~' = '/' ∨
      '~' ∈ (if (splitext (("a.b~c").data)).2 = [] then ((".pdf").data)
             else (splitext (("a.b~c").data)).2)) :=
  ⟨by decide, by decide,
    built_path_illegal_only_from_root_sep_or_extension (("root").data)
      (("a.b~c").data) ((".pdf").data) 0 false '~' (by decide) (by decide)⟩

theorem rfind_eq_lastIdx (p : List Char) (c : Char) :
    rfind p c = (match lastIdx p c with
      | some k => (k : Int)
      | none => -1) := by
  induction p with
  | nil => rfl
  | cons a as ih =>
    simp only [rfind, lastIdx, ih]
    cases h : lastIdx as c with
    | some k =>
      have hk : ((k : Int)) ≥ 0 := by positivity
      simp [if_pos hk]
    | none =>
      by_cases ha : a = c <;> simp [ha]

theorem lastIdx_eq_none_of_not_mem (p : List Char) (c : Char) (h : c ∉ p) :
    lastIdx p c = none := by
  induction p with
  | nil => rfl
  | cons a as ih =>
    simp only [List.mem_cons, not_or] at h
    have ha : ¬(a = c) := fun hh => h.1 hh.symm
    simp [lastIdx, ih h.2, ha]

theorem splitext_eq_amended (t : List Char) (h : '/' ∉ t) :
    splitext t = splitextAmended t := by
  have hsep : lastIdx t '/' = none := lastIdx_eq_none_of_not_mem t '/' h
  simp only [splitext, splitextAmended, rfind_eq_lastIdx, hsep]
  cases hd : lastIdx t '.' with
  | none => simp
  | some d =>
    have hgt : ((d : Int)) > -1 := by omega
    rw [if_pos hgt]
    have h1 : ((-1 : Int) + 1).toNat = 0 := rfl
    have h2 : ((d : Int) - (-1) - 1).toNat = d := by omega
    have h3 : ((d : Int)).toNat = d := by omega
    simp only [h1, h2, h3, List.drop_zero]

/-- C4 (amended): for a title without a path separator, the builder splits
at the title's last dot except that a last dot preceded only by dots does
not begin an extension (so a leading-dot name like ".bashrc" has no
extension); a nonempty extension so found is used verbatim even when it
differs from the resolved suffix, otherwise the passed-in suffix is
appended; `_<i>` is inserted between the sanitized base and the extension
when `i > 0`; in particular two entries titled "Report" with resolved
suffix ".pdf" yield "r/Report.pdf" for index 0 and "r/Report_1.pdf" for
index 1. -/
theorem build_path_last_dot_amended (r t s : List Char) (i : Nat) (tf : Bool)
    (h : '/' ∉ t) :
    getDownloadFileName r t s i tf =
      r ++ [ '/' ] ++ makePcFileName (splitextAmended t).1 tf ++
        (if i > 0 then [ '_' ] ++ natStr i else []) ++
        (if (splitextAmended t).2 = [] then s else (splitextAmended t).2) ∧
    getDownloadFileName (("r").data) (("Report").data) ((".pdf").data) 0 tf =
      (("r/Report.pdf").data) ∧
    getDownloadFileName (("r").data) (("Report").data) ((".pdf").data) 1 tf =
      (("r/Report_1.pdf").data) := by
  refine ⟨?_, rfl, rfl⟩
  have hse := splitext_eq_amended t h
  simp only [getDownloadFileName, hse]
  by_cases hi : i > 0
  · simp [hi, List.append_assoc]
  · simp [hi, List.append_assoc]

theorem build_path_last_dot_amended_witness :
    ('/' ∉ (("a.txt").data)) ∧
    (getDownloadFileName (("r").data) (("a.txt").data) ((".pdf").data) 2
        false =
      (("r").data) ++ [ '/' ] ++
        makePcFileName (splitextAmended (("a.txt").data)).1 false ++
        (if 2 > 0 then [ '_' ] ++ natStr 2 else []) ++
        (if (splitextAmended (("a.txt").data)).2 = [] then ((".pdf").data)
         else (splitextAmended (("a.txt").data)).2) ∧
    getDownloadFileName (("r").data) (("Report").data) ((".pdf").data) 0
        false = (("r/Report.pdf").data) ∧
    getDownloadFileName (("r").data) (("Report").data) ((".pdf").data) 1
        false = (("r/Report_1.pdf").data)) :=
  ⟨by decide,
    build_path_last_dot_amended (("r").data) (("a.txt").data) ((".pdf").data)
      2 false (by decide)⟩

/-- C4 counterexample: the title ".bashrc" has a last dot (at position 0),
so the claim's reading — split at the last dot, use the found extension
verbatim — predicts "r/.bashrc"; the code treats a leading-dot name as
having no extension and appends the suffix, producing "r/.bashrc.pdf". -/
theorem build_path_keeps_leading_dot_title_cex :
    buildPathClaimed (("r").data) ((".bashrc").data) ((".pdf").data) 0 =
      (("r/.bashrc").data) ∧
    getDownloadFileName (("r").data) ((".bashrc").data) ((".pdf").data) 0
        false = (("r/.bashrc.pdf").data) ∧
    (("r/.bashrc").data) ≠ (("r/.bashrc.pdf").data) := by
  decide

end GDrive
